import Mathlib

/-!
Shallow embedding of `src/youtube-chat.py` (a YouTube-transcript chat CLI).

Pure functions of the program are translated into Lean functions on
`String`/`List Char`; the stateful menu loop becomes explicit state passing on
an `AppState`; the external services (punctuation model, transcript backend,
chat-completion backend, terminal input) become explicit parameters/oracles;
Python exceptions become an `Except PyExc` result.

Where the program calls the Python standard library (`urllib.parse.urlparse`,
`urllib.parse.parse_qs`, `str.replace`, `str.strip`, `str.lower`, `str.join`,
f-string interpolation of lists), those library routines are embedded here
with their CPython semantics at the fidelity the program exercises:
`str.lower`/`str.strip` are modelled on ASCII characters (the program only
compares ASCII keywords and hostnames), percent-escapes in query strings are
decoded byte-wise with each byte read as its code point (exact for ASCII
escapes; multi-byte UTF-8 escape sequences are outside the model), and the
`ValueError` raised by `urlsplit` on malformed bracketed (IPv6) hosts is not
modelled (such inputs are outside the model).  Cosmetic terminal details
(ANSI colour codes, spinner frames, input prompts) are not part of the
functional contract and are omitted from the output model.
-/

/-! ### Generic character/list helpers (embeddings of Python `str` methods) -/

/-- A hexadecimal digit value, as used by `urllib.parse.unquote`. -/
def hexVal (c : Char) : Option Nat :=
  if '0' ≤ c ∧ c ≤ '9' then some (c.toNat - '0'.toNat)
  else if 'a' ≤ c ∧ c ≤ 'f' then some (c.toNat - 'a'.toNat + 10)
  else if 'A' ≤ c ∧ c ≤ 'F' then some (c.toNat - 'A'.toNat + 10)
  else none

/-- Test whether the list `p` occurs at the front of `l`. -/
def leadsList : List Char → List Char → Bool
  | [], _ => true
  | _ :: _, [] => false
  | a :: as, b :: bs => a = b && leadsList as bs

/-- Whether the pattern `pat` occurs as a contiguous run somewhere in `l`. -/
def containsPat (pat : List Char) : List Char → Bool
  | [] => leadsList pat []
  | c :: rest => leadsList pat (c :: rest) || containsPat pat rest

/-- Split a list at the first occurrence of the character `c` (the character
itself is dropped), or `none` when `c` does not occur. -/
def splitFirst (c : Char) : List Char → Option (List Char × List Char)
  | [] => none
  | x :: rest =>
    if x = c then some ([], rest)
    else
      match splitFirst c rest with
      | some (a, b) => some (x :: a, b)
      | none => none

/-- Split a list on every occurrence of `c`; embeds Python `str.split(c)`
(so the empty string yields one empty field). -/
def splitAllOn (c : Char) : List Char → List (List Char)
  | [] => [[]]
  | x :: rest =>
    if x = c then [] :: splitAllOn c rest
    else
      match splitAllOn c rest with
      | [] => [[x]]
      | a :: as => (x :: a) :: as

/-- One scan of Python `str.replace`: leftmost, non-overlapping matches of
`pat` are replaced by `rep`.  The scan consumes at least one character per
step, so a fuel equal to the length of the list suffices; fuel is only a
structural-termination device. -/
def replaceGo (pat rep : List Char) : Nat → List Char → List Char
  | _, [] => []
  | 0, l => l
  | fuel + 1, c :: rest =>
    if leadsList pat (c :: rest) then
      rep ++ replaceGo pat rep fuel (List.drop (pat.length - 1) rest)
    else c :: replaceGo pat rep fuel rest

/-- Embedding of Python `str.replace(pat, rep)` for the non-empty patterns the
program uses (the program only ever replaces `". "` and `", "`). -/
def pyReplace (s pat rep : String) : String :=
  if pat.data = [] then s
  else ⟨replaceGo pat.data rep.data s.data.length s.data⟩

/-- Python whitespace as stripped by `str.strip()` (ASCII fragment). -/
def isPySpace (c : Char) : Bool :=
  c = ' ' || c = '\t' || c = '\n' || c = '\x0d' || c = '\x0b' || c = '\x0c'

/-- Embedding of Python `str.strip()` (ASCII whitespace fragment). -/
def pyStrip (s : String) : String :=
  ⟨((s.data.dropWhile isPySpace).reverse.dropWhile isPySpace).reverse⟩

/-- Embedding of Python `str.lower()` (ASCII fragment). -/
def pyLower (s : String) : String :=
  ⟨s.data.map Char.toLower⟩

/-- The lines of a string, split at newline characters. -/
def linesOf (s : String) : List String :=
  (splitAllOn '\n' s.data).map (fun l => ⟨l⟩)

/-- Embedding of Python `sep.join(parts)`: the parts interleaved with the
separator. -/
def joinSep (sep : String) : List String → String
  | [] => ""
  | [x] => x
  | x :: y :: rest => x ++ sep ++ joinSep sep (y :: rest)

/-! ### Embedding of `urllib.parse` (as called by `extract_video_id`) -/

/-- The result of `urllib.parse.urlparse` (the fields the program reads,
plus those needed to compute them). -/
structure ParseResult where
  scheme : String
  netloc : String
  path : String
  params : String
  query : String
  fragment : String
deriving DecidableEq, Repr

/-- Characters allowed in a URL scheme (`urllib.parse.scheme_chars`). -/
def isSchemeChar (c : Char) : Bool :=
  c.isAlpha || c.isDigit || c = '+' || c = '-' || c = '.'

/-- WHATWG C0-control-or-space characters, stripped from the front of the URL
by `urlsplit`. -/
def isC0ControlOrSpace (c : Char) : Bool :=
  c.toNat ≤ 32

/-- Embedding of `urllib.parse.urlsplit(url)` (with `allow_fragments=True`):
strips leading C0 controls/spaces, removes tab/CR/LF, splits off a valid
scheme, a `//`-netloc, the fragment and the query.  The `ValueError` branch
for malformed bracketed hosts is not modelled. -/
def urlsplit (url : String) : ParseResult :=
  let u0 := url.data.dropWhile isC0ControlOrSpace
  let u1 := u0.filter (fun c => ¬ (c = '\t' ∨ c = '\x0d' ∨ c = '\n'))
  let schemeRest : String × List Char :=
    match splitFirst ':' u1 with
    | some (before, after) =>
      if (match before with
          | b :: _ => b.isAlpha && decide (b.toNat < 128) && before.all isSchemeChar
          | [] => false)
      then (pyLower ⟨before⟩, after)
      else ("", u1)
    | none => ("", u1)
  let scheme := schemeRest.1
  let u2 := schemeRest.2
  let netlocRest : List Char × List Char :=
    match u2 with
    | '/' :: '/' :: rest =>
      let nl := rest.takeWhile (fun c => ¬ (c = '/' ∨ c = '?' ∨ c = '#'))
      (nl, rest.drop nl.length)
    | _ => ([], u2)
  let netloc := netlocRest.1
  let u3 := netlocRest.2
  let fragSplit : List Char × List Char :=
    match splitFirst '#' u3 with
    | some (a, b) => (a, b)
    | none => (u3, [])
  let u4 := fragSplit.1
  let fragment := fragSplit.2
  let querySplit : List Char × List Char :=
    match splitFirst '?' u4 with
    | some (a, b) => (a, b)
    | none => (u4, [])
  ⟨scheme, ⟨netloc⟩, ⟨querySplit.1⟩, "", ⟨querySplit.2⟩, ⟨fragment⟩⟩

/-- Schemes for which `urlparse` splits `;parameters` off the path
(`urllib.parse.uses_params`). -/
def uses_params : List String :=
  ["", "ftp", "hdl", "prospero", "http", "imap", "https", "shttp", "rtsp",
   "rtspu", "sip", "sips", "mms", "sftp", "tel"]

/-- Embedding of `urllib.parse._splitparams`: split `;parameters` off the
last path segment. -/
def splitparams (path : List Char) : List Char × List Char :=
  if path.contains '/' then
    let afterRev := path.reverse.takeWhile (fun c => c ≠ '/')
    let pre := (path.reverse.drop afterRev.length).reverse
    match splitFirst ';' afterRev.reverse with
    | some (a, b) => (pre ++ a, b)
    | none => (path, [])
  else
    match splitFirst ';' path with
    | some (a, b) => (a, b)
    | none => (path, [])

/-- Embedding of `urllib.parse.urlparse(url)`: `urlsplit` plus the
params/path split for schemes that use parameters. -/
def urlparse (url : String) : ParseResult :=
  let split := urlsplit url
  if split.scheme ∈ uses_params ∧ split.path.data.contains ';' then
    let pp := splitparams split.path.data
    { split with path := ⟨pp.1⟩, params := ⟨pp.2⟩ }
  else
    split

/-- Embedding of the `hostname` property of a parse result: the part of the
netloc after the last `@`, up to a port/bracket, lowercased; `none` when
empty. -/
def ParseResult.hostname (r : ParseResult) : Option String :=
  let hostinfo := (r.netloc.data.reverse.takeWhile (fun c => c ≠ '@')).reverse
  let host :=
    if hostinfo.contains '[' then
      let bracketed :=
        match splitFirst '[' hostinfo with
        | some (_, b) => b
        | none => hostinfo
      match splitFirst ']' bracketed with
      | some (a, _) => a
      | none => bracketed
    else hostinfo.takeWhile (fun c => c ≠ ':')
  if host = [] then none else some (pyLower ⟨host⟩)

/-- Embedding of `urllib.parse.unquote` composed with the plus-to-space
replacement done by `parse_qsl`: percent-escapes are decoded byte-wise, each
byte read as its code point (exact for ASCII escapes). -/
def unquotePlus : List Char → List Char
  | [] => []
  | '%' :: a :: b :: rest =>
    match hexVal a, hexVal b with
    | some x, some y => Char.ofNat (16 * x + y) :: unquotePlus rest
    | _, _ => '%' :: unquotePlus (a :: b :: rest)
  | '+' :: rest => ' ' :: unquotePlus rest
  | c :: rest => c :: unquotePlus rest

/-- Embedding of `urllib.parse.parse_qsl(qs)` with default arguments
(`keep_blank_values=False`): split on `&`, keep only `name=value` fields with
a non-empty value, unquote both sides. -/
def parse_qsl (qs : String) : List (String × String) :=
  if qs.data = [] then []
  else
    (splitAllOn '&' qs.data).foldr
      (fun field acc =>
        if field = [] then acc
        else
          match splitFirst '=' field with
          | none => acc
          | some (name, value) =>
            if value = [] then acc
            else (⟨unquotePlus name⟩, (⟨unquotePlus value⟩ : String)) :: acc)
      []

/-- Append a value under a key in an insertion-ordered dictionary of lists,
as `parse_qs` builds its result. -/
def dictAppend (d : List (String × List String)) (k v : String) :
    List (String × List String) :=
  if d.any (fun p => p.1 = k) then
    d.map (fun p => if p.1 = k then (p.1, p.2 ++ [v]) else p)
  else d ++ [(k, [v])]

/-- Embedding of `urllib.parse.parse_qs(qs)`: group the `parse_qsl` pairs
into an insertion-ordered dictionary of value lists. -/
def parse_qs (qs : String) : List (String × List String) :=
  (parse_qsl qs).foldl (fun d p => dictAppend d p.1 p.2) []

/-! ### `YouTubeTranscriptHandler` -/

/-- Embedding of the expression reading the first value of the `v` key of
the parsed query (with default `[None]`) in `extract_video_id`. -/
def getVParam (query : String) : Option String :=
  let vals : List (Option String) :=
    match (parse_qs query).find? (fun p => p.1 = "v") with
    | some p => p.2.map some
    | none => [none]
  vals.getD 0 none

/-- Embedding of `YouTubeTranscriptHandler.extract_video_id`. -/
def extract_video_id (url : String) : Option String :=
  let parsed_url := urlparse url
  if parsed_url.hostname = some "www.youtube.com" then
    getVParam parsed_url.query
  else if parsed_url.hostname = some "youtu.be" then
    some (⟨parsed_url.path.data.drop 1⟩ : String)
  else
    none

/-- A timed caption entry as returned by the transcript backend: a text field
plus timing data of an arbitrary type `α` (the program never reads the timing
fields, which the polymorphism makes evident). -/
structure CaptionEntry (α : Type) where
  text : String
  start : α
  duration : α
deriving DecidableEq, Repr

/-- Embedding of `YouTubeTranscriptHandler.get_transcript`, with the fetched
caption entries supplied as a parameter in place of the network call: the
text field of each entry, joined with single spaces. -/
def get_transcript {α : Type} (fetched : List (CaptionEntry α)) : String :=
  joinSep " " (fetched.map CaptionEntry.text)

/-- The line-break insertion step of `add_punctuation`: replace each
period-plus-space with period-plus-newline, then each comma-plus-space with
comma-plus-newline. -/
def lineBreakStep (s : String) : String :=
  pyReplace (pyReplace s ". " ".\n") ", " ",\n"

/-- Embedding of `YouTubeTranscriptHandler.add_punctuation`, with the
external punctuation-restoration model supplied as a function parameter. -/
def add_punctuation (model : String → String) (text : String) : String :=
  lineBreakStep (model text)

/-! ### `LLMHandler` -/

/-- A Python value that is either a string or a list of strings: the
`question` argument flowing through the program is a `str` for chat-loop
questions but a `list` (the `*question` capture) for canned menu questions. -/
inductive PyStrOrList
  | str (s : String)
  | list (l : List String)
deriving DecidableEq, Repr

/-- Python `repr` of a string, as used when a list is interpolated into an
f-string (exact for strings without quotes or backslashes, which is all the
program interpolates). -/
def pyRepr (s : String) : String :=
  "\x27" ++ s ++ "\x27"

/-- Python `str()` of a string-or-list value, as produced by f-string
interpolation. -/
def pyFormat : PyStrOrList → String
  | .str s => s
  | .list l => "[" ++ joinSep ", " (l.map pyRepr) ++ "]"

/-- Embedding of the local `history` binding of `prepare_prompt`:
`"\n".join([f"Q: {q}\nA: {a}" for q, a in chat_history])`. -/
def renderHistory (chat_history : List (PyStrOrList × String)) : String :=
  joinSep "\n" (chat_history.map (fun p => "Q: " ++ pyFormat p.1 ++ "\nA: " ++ p.2))

/-- The template text of `prepare_prompt` before the transcript. -/
def promptIntro : String :=
  "\n        You are an expert answering based only on the provided video transcript.\n        Transcript: \n\n        "

/-- The template text of `prepare_prompt` between transcript and history. -/
def promptMid1 : String :=
  "\n\n        Chat history:\n        "

/-- The template text of `prepare_prompt` between history and question. -/
def promptMid2 : String :=
  "\n\n        Question: "

/-- The template text of `prepare_prompt` after the question. -/
def promptOutro : String :=
  "\n\n        Answer in detail using only the transcript and chat history.\n        If a question is irrelevant to the video, answer with \"I\x27m sorry, I can\x27t answer that question as it is not relevant to the video content.\"\n        If the answer is absent in the video, respond with \"I\x27m sorry, I can\x27t answer that question as the answer is not present in the video content.\"\n        "

/-- Embedding of `LLMHandler.prepare_prompt`: the f-string template with the
transcript, rendered history and question interpolated. -/
def prepare_prompt (text : String) (question : PyStrOrList)
    (chat_history : List (PyStrOrList × String)) : String :=
  promptIntro ++ text ++ promptMid1 ++ renderHistory chat_history ++
    promptMid2 ++ pyFormat question ++ promptOutro

/-- Python exceptions as the program distinguishes them: `KeyboardInterrupt`
versus any other `Exception` carrying its `str()` message.  (`SystemExit`,
raised by `exit()`, derives from `BaseException` only and is modelled as
normal termination, not as a `PyExc`.) -/
inductive PyExc
  | keyboardInterrupt
  | error (msg : String)
deriving DecidableEq, Repr

/-- Embedding of `LLMHandler.invoke`, with the chat-completion backend
supplied as an oracle returning the raw reply content (or an exception):
`self.llm.invoke(prompt).content.strip()`. -/
def llm_invoke (llm : String → Except PyExc String) (prompt : String) :
    Except PyExc String :=
  match llm prompt with
  | .error e => .error e
  | .ok content => .ok (pyStrip content)

/-! ### `VideoCLIApp` -/

/-- The mutable session state owned by `VideoCLIApp`: the current punctuated
transcript and the chat history. -/
structure AppState where
  transcript : String
  chat_history : List (PyStrOrList × String)
deriving DecidableEq, Repr

/-- Embedding of `VideoCLIApp._chat_with_ai`: build the prompt from the given
transcript, the question and the current history; invoke the backend; append
the `(question, answer)` pair to the history.  Returns the answer together
with the updated history. -/
def chat_with_ai (llm : String → Except PyExc String) (transcript : String)
    (chat_history : List (PyStrOrList × String)) (question : PyStrOrList) :
    Except PyExc (String × List (PyStrOrList × String)) :=
  let prompt := prepare_prompt transcript question chat_history
  match llm_invoke llm prompt with
  | .error e => .error e
  | .ok answer => .ok (answer, chat_history ++ [(question, answer)])

/-- The action component of a `_menu_options` entry. -/
inductive MenuAct
  | printTranscript
  | askSingle
  | chatWithAiLoop
  | changeVideo
  | exitApp
deriving DecidableEq, Repr

/-- Embedding of the `_menu_options` dictionary (insertion-ordered): key,
description, bound method, and the `*question` rest-capture (a one-element
list for canned questions, empty otherwise). -/
def menu_options : List (String × String × MenuAct × List String) :=
  [("1", "Print Punctuated Transcript", .printTranscript, []),
   ("2", "Summarize Transcript", .askSingle, ["provide a summary of the video content"]),
   ("3", "Chat with AI Assistant", .chatWithAiLoop, []),
   ("4", "FAQ", .askSingle, ["provide a 5 question FAQ based on the video content"]),
   ("5", "Table of Contents", .askSingle, ["provide a table of contents based on the video content"]),
   ("6", "Change Video", .changeVideo, []),
   ("0", "Exit", .exitApp, [])]

/-- The menu text printed at the top of each `_menu_loop` iteration (colour
codes omitted). -/
def menuText : List String :=
  "\nMenu:" :: menu_options.map (fun e => e.1 ++ ". " ++ e.2.1)

/-- One terminal read inside the chat sub-loop: either a line of input or a
`KeyboardInterrupt` (CTRL+C). -/
inductive UserEvent
  | line (s : String)
  | interrupt
deriving DecidableEq, Repr

/-- Embedding of `VideoCLIApp._chat_with_ai_loop` over a finite list of
terminal events (the loop blocks forever on input, so a run is observed along
a finite event list; an exhausted list ends the observation).  The
`try/except KeyboardInterrupt` around the loop body catches interrupts raised
both at the input read and during the assistant call, printing the
"Chat interrupted" notice and returning to the menu; any other exception
propagates.  Returns the printed output and the final history (or the
propagated exception). -/
def chat_loop (llm : String → Except PyExc String) (transcript : String) :
    List (PyStrOrList × String) → List UserEvent →
    List String × Except PyExc (List (PyStrOrList × String))
  | h, [] => ([], .ok h)
  | h, .interrupt :: _ => (["\nChat interrupted. Returning to menu..."], .ok h)
  | h, .line q :: rest =>
    if pyLower q = "exit" then ([], .ok h)
    else
      match chat_with_ai llm transcript h (.str q) with
      | .error .keyboardInterrupt =>
        (["\nChat interrupted. Returning to menu..."], .ok h)
      | .error e => ([], .error e)
      | .ok (answer, h2) =>
        match chat_loop llm transcript h2 rest with
        | (out, r) => (("\nAnswer:\n " ++ answer) :: out, r)

/-- The external world consumed by one menu action: the chat-completion
backend, the terminal events read if the chat sub-loop runs, and the result
of the fetch-and-punctuate pipeline if "Change Video" runs (`.error` when
that pipeline raises). -/
structure ActionEnv where
  llm : String → Except PyExc String
  chatEvents : List UserEvent
  fetchResult : Except PyExc String

/-- Embedding of one dispatch of `_menu_loop` (after the menu is printed and
a choice read): look the choice up in `_menu_options` and run the action,
passing the `*question` capture as a (list) argument when it is non-empty.
Returns printed output and either the propagated exception or the updated
state plus an "exited" flag (`exit()` under the Exit entry). -/
def menu_step (env : ActionEnv) (s : AppState) (choice : String) :
    List String × Except PyExc (AppState × Bool) :=
  match menu_options.find? (fun e => e.1 = choice) with
  | none => (["Invalid choice. Please try again."], .ok (s, false))
  | some entry =>
    match entry.2.2.1 with
    | .printTranscript =>
      (["\nPunctuated Transcript:\n " ++ s.transcript], .ok (s, false))
    | .askSingle =>
      match chat_with_ai env.llm s.transcript s.chat_history (.list entry.2.2.2) with
      | .error e => ([], .error e)
      | .ok (answer, h2) => ([answer], .ok ({ s with chat_history := h2 }, false))
    | .chatWithAiLoop =>
      match chat_loop env.llm s.transcript s.chat_history env.chatEvents with
      | (out, .error e) => (out, .error e)
      | (out, .ok h2) => (out, .ok ({ s with chat_history := h2 }, false))
    | .changeVideo =>
      match env.fetchResult with
      | .error e => ([], .error e)
      | .ok t => ([], .ok ({ s with transcript := t }, false))
    | .exitApp => (["Exiting..."], .ok (s, true))

/-- One terminal read at the menu prompt: a choice (with the world its action
consumes) or a `KeyboardInterrupt`. -/
inductive MenuEvent
  | choice (c : String) (env : ActionEnv)
  | interrupt

/-- Embedding of `VideoCLIApp._menu_loop` over a finite list of menu events:
print the menu, read a choice, dispatch; nothing is caught here, so any
exception (including an interrupt at the menu prompt) propagates. -/
def menu_loop (s : AppState) : List MenuEvent → List String × Except PyExc AppState
  | [] => ([], .ok s)
  | .interrupt :: _ => (menuText, .error .keyboardInterrupt)
  | .choice c env :: rest =>
    match menu_step env s c with
    | (out, .error e) => (menuText ++ out, .error e)
    | (out, .ok (s2, true)) => (menuText ++ out, .ok s2)
    | (out, .ok (s2, false)) =>
      match menu_loop s2 rest with
      | (out2, r) => (menuText ++ out ++ out2, r)

/-- Embedding of `VideoCLIApp.run`: fetch-and-punctuate the initial
transcript (result supplied as a parameter, `.error` when the pipeline
raises), then run the menu loop; `except KeyboardInterrupt` prints the
farewell, `except Exception as e` prints `"Error: " + str(e)`.  Returns
everything printed. -/
def run (fetch : Except PyExc String) (events : List MenuEvent) : List String :=
  match fetch with
  | .error .keyboardInterrupt => ["\nExiting..."]
  | .error (.error msg) => ["Error: " ++ msg]
  | .ok t =>
    match menu_loop { transcript := t, chat_history := [] } events with
    | (out, .error .keyboardInterrupt) => out ++ ["\nExiting..."]
    | (out, .error (.error msg)) => out ++ ["Error: " ++ msg]
    | (out, .ok _) => out

/-! ### Claims -/

/-- C1: for every URL string, if the parsed hostname is `www.youtube.com`
then `extract_video_id` returns the value of the `v` query parameter (the
head of its `parse_qs` value list, `none` when absent); if the hostname is
`youtu.be` it returns the path with the leading slash dropped; for any other
hostname it returns `none`.  The function is pure — a Lean function of the
URL string alone — so the same URL always yields the same result (stated as
the last conjunct). -/
theorem extract_video_id_spec (url : String) :
    ((urlparse url).hostname = some "www.youtube.com" →
      extract_video_id url = getVParam (urlparse url).query) ∧
    ((urlparse url).hostname = some "youtu.be" →
      extract_video_id url = some (⟨(urlparse url).path.data.drop 1⟩ : String)) ∧
    ((urlparse url).hostname ≠ some "www.youtube.com" →
      (urlparse url).hostname ≠ some "youtu.be" →
      extract_video_id url = none) ∧
    (∀ url2 : String, url2 = url → extract_video_id url2 = extract_video_id url) := by
  refine ⟨fun h => ?_, fun h => ?_, fun h1 h2 => ?_, fun url2 h => by rw [h]⟩
  · simp [extract_video_id, h]
  · simp [extract_video_id, h]
  · simp [extract_video_id, h1, h2]

/-- Witness for C1 at concrete URLs of each of the three shapes. -/
theorem extract_video_id_spec_witness :
    extract_video_id "https://www.youtube.com/watch?v=ABC123" = some "ABC123" ∧
    extract_video_id "https://youtu.be/XYZ987" = some "XYZ987" ∧
    extract_video_id "https://example.com/watch?v=ABC123" = none :=
  ⟨((extract_video_id_spec "https://www.youtube.com/watch?v=ABC123").1
      (by decide)).trans (by decide),
   ((extract_video_id_spec "https://youtu.be/XYZ987").2.1
      (by decide)).trans (by decide),
   (extract_video_id_spec "https://example.com/watch?v=ABC123").2.2.1
      (by decide) (by decide)⟩

/-- C2: `get_transcript` joins the text fields of the fetched caption
entries with single spaces, discarding the timing fields (polymorphic, hence
unread), and `add_punctuation` passes the punctuation model output through the
line-break insertion step (`". " → ".\n"`, then `", " → ",\n"`).  On the
caption entries `["hello world", "how are you"]` with a punctuation model
returning `"Hello world. How are you?"`, the result is exactly the two lines
`"Hello world."` and `"How are you?"`. -/
theorem transcript_preparation_spec :
    (∀ (α : Type) (fetched : List (CaptionEntry α)),
        get_transcript fetched = joinSep " " (fetched.map CaptionEntry.text)) ∧
    (∀ (model : String → String) (text : String),
        add_punctuation model text =
          pyReplace (pyReplace (model text) ". " ".\n") ", " ",\n") ∧
    get_transcript
        [CaptionEntry.mk "hello world" () (), CaptionEntry.mk "how are you" () ()] =
      "hello world how are you" ∧
    add_punctuation (fun _ => "Hello world. How are you?") "hello world how are you" =
      "Hello world.\nHow are you?" ∧
    linesOf "Hello world.\nHow are you?" = ["Hello world.", "How are you?"] :=
  ⟨fun _ _ => rfl, fun _ _ => rfl, by decide, by decide, by decide⟩

/-- C3: the prompt built by `prepare_prompt` contains the transcript
verbatim, the rendered history verbatim, and the question verbatim, in the
template order (first conjunct); the history is rendered pair by pair as
`"Q: …\nA: …"` lines in list (insertion) order (second conjunct); and the
empty history renders as the empty string while the template still renders —
`prepare_prompt` is total, and the decomposition holds at `h = []` too
(third conjunct). -/
theorem prepare_prompt_spec (t q : String) (h : List (PyStrOrList × String)) :
    (∃ p1 p2 p3 p4 : String,
        prepare_prompt t (.str q) h =
          p1 ++ t ++ p2 ++ renderHistory h ++ p3 ++ q ++ p4) ∧
    (∀ (pair : PyStrOrList × String) (rest : List (PyStrOrList × String)),
        renderHistory (pair :: rest) =
          ("Q: " ++ pyFormat pair.1 ++ "\nA: " ++ pair.2) ++
            (if rest = [] then "" else "\n" ++ renderHistory rest)) ∧
    renderHistory [] = "" := by
  refine ⟨⟨promptIntro, promptMid1, promptMid2, promptOutro, rfl⟩, ?_, rfl⟩
  intro pair rest
  cases rest with
  | nil => simp [renderHistory, joinSep, String.append_empty]
  | cons r rs =>
    simp only [renderHistory, List.map_cons, joinSep, if_neg (List.cons_ne_nil r rs),
      String.append_assoc]

/-- A `str.replace` scan leaves a list unchanged when the pattern occurs
nowhere in it. -/
theorem replaceGo_of_not_contains (pat rep : List Char) :
    ∀ l : List Char, containsPat pat l = false → replaceGo pat rep l.length l = l := by
  intro l
  induction l with
  | nil => intro _; rfl
  | cons c rest ih =>
    intro hc
    simp only [containsPat, Bool.or_eq_false_iff] at hc
    simp only [List.length_cons, replaceGo, hc.1, Bool.false_eq_true, if_false]
    rw [ih hc.2]

/-- The function `pyReplace` leaves a string unchanged when the pattern
occurs nowhere in it. -/
theorem pyReplace_of_not_contains (s pat rep : String)
    (h : containsPat pat.data s.data = false) : pyReplace s pat rep = s := by
  unfold pyReplace
  split
  · rfl
  · rw [replaceGo_of_not_contains pat.data rep.data s.data h]

/-- C10: on a string containing no occurrence of `". "` and no occurrence of
`", "`, the line-break insertion step of `add_punctuation` is the identity;
hence applying it to its own output on such text changes nothing
(idempotence on already-formatted text). -/
theorem line_break_step_idempotent (s : String)
    (h1 : containsPat ". ".data s.data = false)
    (h2 : containsPat ", ".data s.data = false) :
    lineBreakStep s = s ∧ lineBreakStep (lineBreakStep s) = lineBreakStep s := by
  have hs : lineBreakStep s = s := by
    unfold lineBreakStep
    rw [pyReplace_of_not_contains s ". " ".\n" h1,
      pyReplace_of_not_contains s ", " ",\n" h2]
  exact ⟨hs, by rw [hs, hs]⟩

/-- Witness for C10 on the already-formatted text produced in the C2
scenario. -/
theorem line_break_step_idempotent_witness :
    containsPat ". ".data "Hello world.\nHow are you?".data = false ∧
    lineBreakStep "Hello world.\nHow are you?" = "Hello world.\nHow are you?" :=
  ⟨by decide,
   (line_break_step_idempotent "Hello world.\nHow are you?" (by decide) (by decide)).1⟩

/-- A successful `_chat_with_ai` call appends exactly the new
`(question, answer)` pair to the end of the history. -/
theorem chat_with_ai_append (llm : String → Except PyExc String)
    (transcript : String) (h : List (PyStrOrList × String)) (q : PyStrOrList)
    (a : String) (h2 : List (PyStrOrList × String))
    (hok : chat_with_ai llm transcript h q = .ok (a, h2)) :
    h2 = h ++ [(q, a)] := by
  simp only [chat_with_ai] at hok
  revert hok
  cases llm_invoke llm (prepare_prompt transcript q h) with
  | error e => intro hok; cases hok
  | ok ans =>
    intro hok
    simp only [Except.ok.injEq, Prod.mk.injEq] at hok
    obtain ⟨rfl, rfl⟩ := hok
    rfl

/-- The chat sub-loop only ever extends the history it is given. -/
theorem chat_loop_extends (llm : String → Except PyExc String) (transcript : String) :
    ∀ (events : List UserEvent) (h h2 : List (PyStrOrList × String)),
      (chat_loop llm transcript h events).2 = .ok h2 →
      ∃ tail, h2 = h ++ tail := by
  intro events
  induction events with
  | nil =>
    intro h h2 hr
    simp only [chat_loop, Except.ok.injEq] at hr
    exact ⟨[], by simp [hr]⟩
  | cons e rest ih =>
    intro h h2 hr
    cases e with
    | interrupt =>
      simp only [chat_loop, Except.ok.injEq] at hr
      exact ⟨[], by simp [hr]⟩
    | line q =>
      simp only [chat_loop] at hr
      by_cases hq : pyLower q = "exit"
      · rw [if_pos hq] at hr
        simp only [Except.ok.injEq] at hr
        exact ⟨[], by simp [hr]⟩
      · rw [if_neg hq] at hr
        revert hr
        cases hcw : chat_with_ai llm transcript h (.str q) with
        | error e =>
          cases e with
          | keyboardInterrupt =>
            intro hr
            simp only [Except.ok.injEq] at hr
            exact ⟨[], by simp [hr]⟩
          | error m => intro hr; cases hr
        | ok pr =>
          obtain ⟨answer, hmid⟩ := pr
          intro hr
          have hrec : (chat_loop llm transcript hmid rest).2 = .ok h2 := hr
          obtain ⟨tail, htail⟩ := ih hmid h2 hrec
          have hm : hmid = h ++ [(.str q, answer)] :=
            chat_with_ai_append llm transcript h (.str q) answer hmid hcw
          exact ⟨[(.str q, answer)] ++ tail, by rw [htail, hm, List.append_assoc]⟩

/-- A successfully dispatched menu action only ever extends the chat
history of the session. -/
theorem menu_step_extends (env : ActionEnv) (s : AppState) (choice : String) :
    ∀ (s2 : AppState) (b : Bool), (menu_step env s choice).2 = .ok (s2, b) →
      ∃ tail, s2.chat_history = s.chat_history ++ tail := by
  intro s2 b hr
  simp only [menu_step] at hr
  split at hr
  · simp only [Except.ok.injEq, Prod.mk.injEq] at hr
    obtain ⟨rfl, rfl⟩ := hr
    exact ⟨[], by simp⟩
  · split at hr
    · simp only [Except.ok.injEq, Prod.mk.injEq] at hr
      obtain ⟨rfl, rfl⟩ := hr
      exact ⟨[], by simp⟩
    · split at hr
      · cases hr
      · next ans h2 hcw =>
        simp only [Except.ok.injEq, Prod.mk.injEq] at hr
        obtain ⟨rfl, rfl⟩ := hr
        exact ⟨_, chat_with_ai_append env.llm s.transcript s.chat_history _ ans h2 hcw⟩
    · split at hr
      · cases hr
      · next out h2 hcl =>
        simp only [Except.ok.injEq, Prod.mk.injEq] at hr
        obtain ⟨rfl, rfl⟩ := hr
        exact chat_loop_extends env.llm s.transcript env.chatEvents s.chat_history h2
          (by rw [hcl])
    · split at hr
      · cases hr
      · simp only [Except.ok.injEq, Prod.mk.injEq] at hr
        obtain ⟨rfl, rfl⟩ := hr
        exact ⟨[], by simp⟩
    · simp only [Except.ok.injEq, Prod.mk.injEq] at hr
      obtain ⟨rfl, rfl⟩ := hr
      exact ⟨[], by simp⟩

/-- Any observed run of the menu loop only ever extends the chat history. -/
theorem menu_loop_extends :
    ∀ (events : List MenuEvent) (s s2 : AppState),
      (menu_loop s events).2 = .ok s2 →
      ∃ tail, s2.chat_history = s.chat_history ++ tail := by
  intro events
  induction events with
  | nil =>
    intro s s2 hr
    simp only [menu_loop, Except.ok.injEq] at hr
    exact ⟨[], by simp [hr]⟩
  | cons e rest ih =>
    intro s s2 hr
    cases e with
    | interrupt => cases hr
    | choice c env =>
      simp only [menu_loop] at hr
      revert hr
      cases hms : menu_step env s c with
      | mk out r =>
        cases r with
        | error e => intro hr; cases hr
        | ok pr =>
          obtain ⟨smid, b⟩ := pr
          cases b with
          | true =>
            intro hr
            simp only [Except.ok.injEq] at hr
            obtain rfl := hr
            exact menu_step_extends env s c smid true (by rw [hms])
          | false =>
            intro hr
            have hrec : (menu_loop smid rest).2 = .ok s2 := hr
            obtain ⟨t1, ht1⟩ := menu_step_extends env s c smid false (by rw [hms])
            obtain ⟨t2, ht2⟩ := ih smid s2 hrec
            exact ⟨t1 ++ t2, by rw [ht2, ht1, List.append_assoc]⟩

/-- C4: chat history is append-only.  A successful assistant invocation
(chat question or canned menu question all go through `_chat_with_ai`)
appends exactly one `(question, answer)` pair at the end of the history
(first conjunct); any successfully dispatched menu action extends the
history by some (possibly empty) suffix, leaving existing entries as a
stable prefix (second conjunct); over any observed sequence of menu and
chat events the final history is the initial history plus a suffix, so its
length is monotonically nondecreasing (third conjunct). -/
theorem chat_history_append_only :
    (∀ (llm : String → Except PyExc String) (transcript : String)
        (h : List (PyStrOrList × String)) (q : PyStrOrList) (a : String)
        (h2 : List (PyStrOrList × String)),
        chat_with_ai llm transcript h q = .ok (a, h2) → h2 = h ++ [(q, a)]) ∧
    (∀ (env : ActionEnv) (s : AppState) (choice : String) (s2 : AppState) (b : Bool),
        (menu_step env s choice).2 = .ok (s2, b) →
        ∃ tail, s2.chat_history = s.chat_history ++ tail) ∧
    (∀ (events : List MenuEvent) (s s2 : AppState),
        (menu_loop s events).2 = .ok s2 →
        (∃ tail, s2.chat_history = s.chat_history ++ tail) ∧
        s.chat_history.length ≤ s2.chat_history.length) := by
  refine ⟨chat_with_ai_append, menu_step_extends, fun events s s2 hr => ?_⟩
  obtain ⟨tail, ht⟩ := menu_loop_extends events s s2 hr
  exact ⟨⟨tail, ht⟩, by rw [ht]; simp⟩

/-- A chat-completion backend that ignores the prompt and replies with
`" fine "` (note the surrounding whitespace, to exercise trimming). -/
def llmFine : String → Except PyExc String :=
  fun _ => .ok " fine "

/-- An action environment whose backend always succeeds. -/
def envFine : ActionEnv :=
  ⟨llmFine, [.line "hi", .line "exit"], .ok "NEW"⟩

/-- Witness for C4: one concrete assistant invocation appends its pair, and
a concrete menu-loop run extends the empty history. -/
theorem chat_history_append_only_witness :
    ([((PyStrOrList.str "hi" : PyStrOrList), "fine")] =
      ([] : List (PyStrOrList × String)) ++ [(.str "hi", "fine")]) ∧
    (∃ tail, (AppState.mk "T" [(.str "hi", "fine")]).chat_history =
        (AppState.mk "T" []).chat_history ++ tail) ∧
    (AppState.mk "T" []).chat_history.length ≤
      (AppState.mk "T" [(.str "hi", "fine")]).chat_history.length :=
  ⟨chat_history_append_only.1 llmFine "T" [] (.str "hi") "fine"
      [(.str "hi", "fine")] rfl,
   (chat_history_append_only.2.2 [.choice "3" envFine] ⟨"T", []⟩
      ⟨"T", [(.str "hi", "fine")]⟩ rfl).1,
   (chat_history_append_only.2.2 [.choice "3" envFine] ⟨"T", []⟩
      ⟨"T", [(.str "hi", "fine")]⟩ rfl).2⟩

/-- C5: the "Change Video" action (menu choice `"6"`) replaces the session
transcript with the newly fetched punctuated transcript and leaves the chat
history unchanged (first conjunct); actions invoked afterwards read the
transcript field of the session, so an immediately following "print transcript"
action prints the new transcript (second conjunct) and the prompt of any
immediately following assistant action embeds the new transcript (third
conjunct). -/
theorem change_video_spec (env : ActionEnv) (s : AppState) (nt : String)
    (hfetch : env.fetchResult = .ok nt) :
    menu_step env s "6" =
      ([], .ok ({ transcript := nt, chat_history := s.chat_history }, false)) ∧
    (∀ env2 : ActionEnv,
        menu_step env2 { transcript := nt, chat_history := s.chat_history } "1" =
          (["\nPunctuated Transcript:\n " ++ nt],
           .ok ({ transcript := nt, chat_history := s.chat_history }, false))) ∧
    (∀ q : PyStrOrList, ∃ p1 p2 : String,
        prepare_prompt
            ({ transcript := nt, chat_history := s.chat_history } : AppState).transcript
            q
            ({ transcript := nt, chat_history := s.chat_history } : AppState).chat_history =
          p1 ++ nt ++ p2) := by
  refine ⟨?_, fun env2 => rfl, fun q => ?_⟩
  · have hstep : menu_step env s "6" =
        match env.fetchResult with
        | .error e => ([], .error e)
        | .ok t => ([], .ok ({ s with transcript := t }, false)) := rfl
    rw [hstep, hfetch]
  · refine ⟨promptIntro, promptMid1 ++ renderHistory s.chat_history ++ promptMid2 ++
      pyFormat q ++ promptOutro, ?_⟩
    simp only [prepare_prompt, String.append_assoc]

/-- Witness for C5 with a concrete fetched transcript. -/
theorem change_video_spec_witness :
    menu_step envFine (AppState.mk "OLD" [(.str "hi", "fine")]) "6" =
      ([], .ok (AppState.mk "NEW" [(.str "hi", "fine")], false)) ∧
    (∃ p1 p2 : String,
        prepare_prompt "NEW" (.str "what?") [(.str "hi", "fine")] = p1 ++ "NEW" ++ p2) :=
  ⟨(change_video_spec envFine (AppState.mk "OLD" [(.str "hi", "fine")]) "NEW" rfl).1,
   (change_video_spec envFine (AppState.mk "OLD" [(.str "hi", "fine")]) "NEW" rfl).2.2
     (.str "what?")⟩

/-- C6: an error raised during initial transcript acquisition is caught once
at the top level, printed as `"Error: …"`, and the process ends without the
menu ever being presented or any menu event being consumed (first conjunct);
an error raised by a dispatched menu action is not caught at the menu scope —
the loop stops and the exception propagates unchanged, with the remaining
events unconsumed (second conjunct) — and reaches the same top-level handler,
which prints the same `"Error: …"` message and ends the session (third
conjunct). -/
theorem error_propagation_spec :
    (∀ (msg : String) (events : List MenuEvent),
        run (.error (.error msg)) events = ["Error: " ++ msg]) ∧
    (∀ (env : ActionEnv) (s : AppState) (choice : String) (rest : List MenuEvent)
        (out : List String) (e : PyExc),
        menu_step env s choice = (out, .error e) →
        menu_loop s (.choice choice env :: rest) = (menuText ++ out, .error e)) ∧
    (∀ (t : String) (events : List MenuEvent) (out : List String) (msg : String),
        menu_loop { transcript := t, chat_history := [] } events =
          (out, .error (.error msg)) →
        run (.ok t) events = out ++ ["Error: " ++ msg]) := by
  refine ⟨fun msg events => rfl, fun env s choice rest out e hstep => ?_,
    fun t events out msg hml => ?_⟩
  · have hloop : menu_loop s (.choice choice env :: rest) =
        match menu_step env s choice with
        | (o, .error e2) => (menuText ++ o, .error e2)
        | (o, .ok (s2, true)) => (menuText ++ o, .ok s2)
        | (o, .ok (s2, false)) =>
          match menu_loop s2 rest with
          | (out2, r) => (menuText ++ o ++ out2, r) := rfl
    rw [hloop, hstep]
  · have hrun : run (.ok t) events =
        match menu_loop { transcript := t, chat_history := [] } events with
        | (out2, .error .keyboardInterrupt) => out2 ++ ["\nExiting..."]
        | (out2, .error (.error msg2)) => out2 ++ ["Error: " ++ msg2]
        | (out2, .ok _) => out2 := rfl
    rw [hrun, hml]

/-- A chat-completion backend that always raises a generic exception. -/
def llmBoom : String → Except PyExc String :=
  fun _ => .error (.error "boom")

/-- An action environment whose backend always raises. -/
def envBoom : ActionEnv :=
  ⟨llmBoom, [], .ok "NEW"⟩

/-- Witness for C6: a fetch failure prints only the error line; a failing
FAQ action propagates out of the menu loop and reaches the top-level
handler. -/
theorem error_propagation_spec_witness :
    run (.error (.error "no captions")) [.choice "1" envFine] =
      ["Error: no captions"] ∧
    menu_loop (AppState.mk "T" []) [.choice "4" envBoom, .choice "1" envFine] =
      (menuText ++ [], .error (.error "boom")) ∧
    run (.ok "T") [.choice "4" envBoom, .choice "1" envFine] =
      (menuText ++ []) ++ ["Error: boom"] :=
  ⟨error_propagation_spec.1 "no captions" [.choice "1" envFine],
   error_propagation_spec.2.1 envBoom (AppState.mk "T" []) "4" [.choice "1" envFine]
     [] (.error "boom") rfl,
   error_propagation_spec.2.2 "T" [.choice "4" envBoom, .choice "1" envFine]
     (menuText ++ []) "boom"
     (error_propagation_spec.2.1 envBoom (AppState.mk "T" []) "4" [.choice "1" envFine]
       [] (.error "boom") rfl)⟩

/-- C7: inside the chat sub-loop, entering the literal keyword `"exit"`
returns control to the menu without propagating an error and without
invoking the assistant for that input — the result is independent of the
backend, with no output and an unchanged history (first conjunct) — and an
interrupt signal there likewise returns to the menu (second conjunct); an
interrupt at the top level ends the process with the farewell line (third
conjunct); these are the only two scopes that catch interrupts: the menu
loop itself propagates an interrupt raised by a dispatched action (fourth
conjunct) or at the menu prompt (fifth conjunct), and the propagated
interrupt reaches the top-level handler, which ends the session with the
farewell line (sixth conjunct). -/
theorem interrupt_handling_spec :
    (∀ (llm : String → Except PyExc String) (transcript : String)
        (h : List (PyStrOrList × String)) (rest : List UserEvent),
        chat_loop llm transcript h (.line "exit" :: rest) = ([], .ok h)) ∧
    (∀ (llm : String → Except PyExc String) (transcript : String)
        (h : List (PyStrOrList × String)) (rest : List UserEvent),
        chat_loop llm transcript h (.interrupt :: rest) =
          (["\nChat interrupted. Returning to menu..."], .ok h)) ∧
    (∀ events : List MenuEvent, run (.error .keyboardInterrupt) events = ["\nExiting..."]) ∧
    (∀ (env : ActionEnv) (s : AppState) (choice : String) (rest : List MenuEvent)
        (out : List String),
        menu_step env s choice = (out, .error .keyboardInterrupt) →
        menu_loop s (.choice choice env :: rest) =
          (menuText ++ out, .error .keyboardInterrupt)) ∧
    (∀ (s : AppState) (rest : List MenuEvent),
        menu_loop s (.interrupt :: rest) = (menuText, .error .keyboardInterrupt)) ∧
    (∀ (t : String) (events : List MenuEvent) (out : List String),
        menu_loop { transcript := t, chat_history := [] } events =
          (out, .error .keyboardInterrupt) →
        run (.ok t) events = out ++ ["\nExiting..."]) := by
  refine ⟨fun llm transcript h rest => rfl, fun llm transcript h rest => rfl,
    fun events => rfl, fun env s choice rest out hstep => ?_,
    fun s rest => rfl, fun t events out hml => ?_⟩
  · have hloop : menu_loop s (.choice choice env :: rest) =
        match menu_step env s choice with
        | (o, .error e2) => (menuText ++ o, .error e2)
        | (o, .ok (s2, true)) => (menuText ++ o, .ok s2)
        | (o, .ok (s2, false)) =>
          match menu_loop s2 rest with
          | (out2, r) => (menuText ++ o ++ out2, r) := rfl
    rw [hloop, hstep]
  · have hrun : run (.ok t) events =
        match menu_loop { transcript := t, chat_history := [] } events with
        | (out2, .error .keyboardInterrupt) => out2 ++ ["\nExiting..."]
        | (out2, .error (.error msg2)) => out2 ++ ["Error: " ++ msg2]
        | (out2, .ok _) => out2 := rfl
    rw [hrun, hml]

/-- A chat-completion backend whose call is interrupted by CTRL+C. -/
def llmInterrupted : String → Except PyExc String :=
  fun _ => .error .keyboardInterrupt

/-- An action environment whose backend call raises `KeyboardInterrupt`. -/
def envInterrupted : ActionEnv :=
  ⟨llmInterrupted, [], .ok "NEW"⟩

/-- Witness for C7: an interrupt during a canned (FAQ) assistant call
propagates through the menu loop and ends the session with the farewell
line. -/
theorem interrupt_handling_spec_witness :
    chat_loop llmBoom "T" [] [.line "exit", .interrupt] = ([], .ok []) ∧
    menu_loop (AppState.mk "T" []) [.choice "4" envInterrupted] =
      (menuText ++ [], .error .keyboardInterrupt) ∧
    run (.ok "T") [.choice "4" envInterrupted] = (menuText ++ []) ++ ["\nExiting..."] :=
  ⟨interrupt_handling_spec.1 llmBoom "T" [] [.interrupt],
   interrupt_handling_spec.2.2.2.1 envInterrupted (AppState.mk "T" []) "4" [] [] rfl,
   interrupt_handling_spec.2.2.2.2.2 "T" [.choice "4" envInterrupted] (menuText ++ [])
     (interrupt_handling_spec.2.2.2.1 envInterrupted (AppState.mk "T" []) "4" [] [] rfl)⟩

/-- C8: when the FAQ menu action (choice `"4"`) runs, the prompt handed to
the assistant backend contains the fixed canned question text
`"provide a 5 question FAQ based on the video content"` (inside the
interpolated list representation — first conjunct) and the current session
transcript (second conjunct); the reply of the backend is printed unchanged apart
from whitespace trimming, and the turn is recorded (third conjunct). -/
theorem faq_action_spec (env : ActionEnv) (s : AppState) :
    (∃ p1 p2 : String,
        prepare_prompt s.transcript
            (.list ["provide a 5 question FAQ based on the video content"])
            s.chat_history =
          p1 ++ "provide a 5 question FAQ based on the video content" ++ p2) ∧
    (∃ p1 p2 : String,
        prepare_prompt s.transcript
            (.list ["provide a 5 question FAQ based on the video content"])
            s.chat_history =
          p1 ++ s.transcript ++ p2) ∧
    (∀ raw : String,
        env.llm (prepare_prompt s.transcript
            (.list ["provide a 5 question FAQ based on the video content"])
            s.chat_history) = .ok raw →
        menu_step env s "4" =
          ([pyStrip raw],
           .ok ({ s with chat_history :=
                    s.chat_history ++
                      [(.list ["provide a 5 question FAQ based on the video content"],
                        pyStrip raw)] }, false))) := by
  refine ⟨⟨promptIntro ++ s.transcript ++ promptMid1 ++ renderHistory s.chat_history ++
      promptMid2 ++ "[\x27", "\x27]" ++ promptOutro, ?_⟩,
    ⟨promptIntro, promptMid1 ++ renderHistory s.chat_history ++ promptMid2 ++
      pyFormat (.list ["provide a 5 question FAQ based on the video content"]) ++
      promptOutro, ?_⟩,
    fun raw hllm => ?_⟩
  · simp only [prepare_prompt, pyFormat, joinSep, List.map, pyRepr, String.append_assoc]
    rfl
  · simp only [prepare_prompt, String.append_assoc]
  · have hstep : menu_step env s "4" =
        match chat_with_ai env.llm s.transcript s.chat_history
            (.list ["provide a 5 question FAQ based on the video content"]) with
        | .error e => ([], .error e)
        | .ok (answer, h2) => ([answer], .ok ({ s with chat_history := h2 }, false)) := rfl
    have hcw : chat_with_ai env.llm s.transcript s.chat_history
        (.list ["provide a 5 question FAQ based on the video content"]) =
        .ok (pyStrip raw,
          s.chat_history ++
            [(.list ["provide a 5 question FAQ based on the video content"],
              pyStrip raw)]) := by
      simp only [chat_with_ai, llm_invoke, hllm]
    rw [hstep, hcw]

/-- Witness for C8 with a concrete session and a backend replying
`" fine "`, echoed as the trimmed `"fine"`. -/
theorem faq_action_spec_witness :
    menu_step envFine (AppState.mk "T" []) "4" =
      (["fine"],
       .ok (AppState.mk "T"
         [(.list ["provide a 5 question FAQ based on the video content"], "fine")],
        false)) :=
  (faq_action_spec envFine (AppState.mk "T" [])).2.2 " fine " rfl

/-- C9: the rest-capture of the menu dispatcher wraps each canned
question in a one-element list — the three single-question entries carry
exactly these singleton lists (first conjunct) — and the action is invoked
with that list, so the Question line of the constructed prompt embeds the
Python string representation of the list, i.e. the canned text surrounded
by a bracketed quote pair (second conjunct),
and the pair appended to the chat history stores the one-element list, not
the plain string, as its question component (third conjunct). -/
theorem canned_question_wrapped_in_list (env : ActionEnv) (s : AppState) :
    ((menu_options.filter (fun e => e.2.2.1 = MenuAct.askSingle)).map
        (fun e => e.2.2.2) =
      [["provide a summary of the video content"],
       ["provide a 5 question FAQ based on the video content"],
       ["provide a table of contents based on the video content"]]) ∧
    (∃ p1 p2 : String,
        prepare_prompt s.transcript
            (.list ["provide a summary of the video content"]) s.chat_history =
          p1 ++ "Question: [\x27provide a summary of the video content\x27]" ++ p2) ∧
    (∀ raw : String,
        env.llm (prepare_prompt s.transcript
            (.list ["provide a summary of the video content"]) s.chat_history) =
          .ok raw →
        menu_step env s "2" =
          ([pyStrip raw],
           .ok ({ s with chat_history :=
                    s.chat_history ++
                      [(.list ["provide a summary of the video content"],
                        pyStrip raw)] }, false))) := by
  refine ⟨by decide,
    ⟨promptIntro ++ s.transcript ++ promptMid1 ++ renderHistory s.chat_history ++
      "\n\n        ", promptOutro, ?_⟩,
    fun raw hllm => ?_⟩
  · simp only [prepare_prompt, pyFormat, joinSep, List.map, pyRepr, String.append_assoc]
    rfl
  · have hstep : menu_step env s "2" =
        match chat_with_ai env.llm s.transcript s.chat_history
            (.list ["provide a summary of the video content"]) with
        | .error e => ([], .error e)
        | .ok (answer, h2) => ([answer], .ok ({ s with chat_history := h2 }, false)) := rfl
    have hcw : chat_with_ai env.llm s.transcript s.chat_history
        (.list ["provide a summary of the video content"]) =
        .ok (pyStrip raw,
          s.chat_history ++
            [(.list ["provide a summary of the video content"], pyStrip raw)]) := by
      simp only [chat_with_ai, llm_invoke, hllm]
    rw [hstep, hcw]

/-- Witness for C9: the summarize action on a concrete session stores the
one-element list as the question of the recorded pair. -/
theorem canned_question_wrapped_in_list_witness :
    menu_step envFine (AppState.mk "T" []) "2" =
      (["fine"],
       .ok (AppState.mk "T"
         [(.list ["provide a summary of the video content"], "fine")], false)) :=
  (canned_question_wrapped_in_list envFine (AppState.mk "T" [])).2.2 " fine " rfl
